import Mathlib

/-!
Shallow embedding of the catalog synchronization client of this repository
(`src/services/facebookService.ts`; the file holds two historical variants of
the service, and a third variant carrying `refreshProductsStatus` lives in an
unnamed source file).  Pure computations (set diffing, price conversion,
response reconciliation, pagination merging, snapshot building) are embedded
as Lean functions; the remote provider is modelled by the data it serves
(lists of batch sub-responses, lists of pages).  JSON bodies are modelled by
the shape the code actually probes after `JSON.parse`, with `Option` for
fields that may be absent and an explicit constructor for bodies whose parse
throws.
-/

/-! ### Set Diff Engine (imperative `updateSet`, first service variant) -/

/-- `const idsToAdd = productIds.filter(id => !currentProductIdsSet.has(id))`.
The source builds a JS `Set` from `currentProductIds` first; membership in
that set coincides with list membership, so the filter predicate is
`!currentProductIds.contains id`. -/
def idsToAdd (currentProductIds productIds : List String) : List String :=
  productIds.filter (fun id => !(currentProductIds.contains id))

/-- `const idsToRemove = currentProductIds.filter(id => !newProductIdsSet.has(id))`. -/
def idsToRemove (currentProductIds productIds : List String) : List String :=
  currentProductIds.filter (fun id => !(productIds.contains id))

/-- The imperative `updateSet` issues at most one remove-members call and at
most one add-members call, in that order; either is skipped entirely when its
operand list is empty (`if (idsToRemove.length > 0)`, `if (idsToAdd.length > 0)`). -/
inductive SetUpdateCall where
  | removeCall (ids : List String)
  | addCall (ids : List String)
deriving DecidableEq

/-- The sequence of membership calls the imperative `updateSet` issues. -/
def updateSetCalls (currentProductIds productIds : List String) : List SetUpdateCall :=
  (if 0 < (idsToRemove currentProductIds productIds).length then
    [SetUpdateCall.removeCall (idsToRemove currentProductIds productIds)] else [])
  ++ (if 0 < (idsToAdd currentProductIds productIds).length then
    [SetUpdateCall.addCall (idsToAdd currentProductIds productIds)] else [])

/-- Remote membership after the imperative `updateSet` body runs: the
`DELETE /{setId}/products` call removes exactly `idsToRemove`, then the
`POST /{setId}/products` call appends exactly `idsToAdd`. -/
def applyImperative (currentProductIds productIds : List String) : List String :=
  currentProductIds.filter
      (fun id => !((idsToRemove currentProductIds productIds).contains id))
    ++ idsToAdd currentProductIds productIds

/-! ### Set Diff Engine (declarative `updateSet`, second service variant) -/

/-- `filter: { product_item_id: { is_any: ... } }`. -/
structure SetFilter where
  is_any : List String
deriving DecidableEq

/-- The declarative `updateSet` payload: `{ name, filter }`. -/
structure UpdateSetPayload where
  name : String
  filter : SetFilter
deriving DecidableEq

/-- Payload built by the declarative `updateSet`:
`is_any: productIds.length > 0 ? productIds : []`. -/
def updateSetPayload (name : String) (productIds : List String) : UpdateSetPayload :=
  { name := name
    filter := { is_any := if 0 < productIds.length then productIds else [] } }

/-- Modelled from the spec: the remote provider's effect of a declarative
membership-filter write — after the update the set's membership is exactly
the IDs enumerated by the filter (`§4.5`: "the provider computes the
effective add/remove itself"); this provider-side behaviour has no code in
the repository. -/
def declApply (_currentMembership : List String) (p : UpdateSetPayload) : List String :=
  p.filter.is_any

/-! #### Diff engine lemmas -/

theorem mem_idsToAdd {c d : List String} {x : String} :
    x ∈ idsToAdd c d ↔ x ∈ d ∧ x ∉ c := by
  simp [idsToAdd, List.mem_filter]

theorem mem_idsToRemove {c d : List String} {x : String} :
    x ∈ idsToRemove c d ↔ x ∈ c ∧ x ∉ d := by
  simp [idsToRemove, List.mem_filter]

theorem mem_applyImperative {c d : List String} {x : String} :
    x ∈ applyImperative c d ↔ x ∈ d := by
  simp only [applyImperative, List.mem_append, List.mem_filter]
  constructor
  · rintro (⟨hc, hf⟩ | ha)
    · have hf' : x ∉ idsToRemove c d := by simp_all
      rw [mem_idsToRemove] at hf'
      by_contra hd
      exact hf' ⟨hc, hd⟩
    · exact (mem_idsToAdd.mp ha).1
  · intro hd
    by_cases hc : x ∈ c
    · left
      refine ⟨hc, ?_⟩
      have hf' : x ∉ idsToRemove c d := by
        rw [mem_idsToRemove]
        rintro ⟨-, hnd⟩
        exact hnd hd
      simp_all
    · right
      exact mem_idsToAdd.mpr ⟨hd, hc⟩

theorem idsToAdd_applyImperative (c d : List String) :
    idsToAdd (applyImperative c d) d = [] := by
  rw [idsToAdd, List.filter_eq_nil_iff]
  intro x hx
  have : x ∈ applyImperative c d := mem_applyImperative.mpr hx
  simp_all

theorem idsToRemove_applyImperative (c d : List String) :
    idsToRemove (applyImperative c d) d = [] := by
  rw [idsToRemove, List.filter_eq_nil_iff]
  intro x hx
  have : x ∈ d := mem_applyImperative.mp hx
  simp_all

/-- C3: the imperative set-update computes `toAdd = desired − current` and
`toRemove = current − desired` as standard set differences; the empty desired
set is a valid target (remove everything, add nothing); on current
`{a, d}` and desired `{a, b, c}` the diffs are `toAdd = {b, c}` and
`toRemove = {d}`; and the add (resp. remove) call is skipped entirely when
its operand list is empty. -/
theorem updateSet_diff_correct (current desired : List String) :
    (∀ x, x ∈ idsToAdd current desired ↔ x ∈ desired ∧ x ∉ current) ∧
    (∀ x, x ∈ idsToRemove current desired ↔ x ∈ current ∧ x ∉ desired) ∧
    (idsToAdd current [] = [] ∧
      (∀ x, x ∈ idsToRemove current [] ↔ x ∈ current)) ∧
    (idsToAdd ["a", "d"] ["a", "b", "c"] = ["b", "c"] ∧
      idsToRemove ["a", "d"] ["a", "b", "c"] = ["d"]) ∧
    (idsToAdd current desired = [] →
      ∀ ids, SetUpdateCall.addCall ids ∉ updateSetCalls current desired) ∧
    (idsToRemove current desired = [] →
      ∀ ids, SetUpdateCall.removeCall ids ∉ updateSetCalls current desired) := by
  refine ⟨fun x => mem_idsToAdd, fun x => mem_idsToRemove, ⟨?_, fun x => ?_⟩, by decide,
    ?_, ?_⟩
  · simp [idsToAdd]
  · simp [mem_idsToRemove]
  · intro h ids hmem
    by_cases hr : 0 < (idsToRemove current desired).length <;>
      simp [updateSetCalls, h, hr] at hmem
  · intro h ids hmem
    by_cases ha : 0 < (idsToAdd current desired).length <;>
      simp [updateSetCalls, h, ha] at hmem

/-- C3 witness: the concrete diff of the claim, and with current = desired =
`{a}` both diffs are empty so neither membership call is issued. -/
theorem updateSet_diff_correct_witness :
    ("b" ∈ idsToAdd ["a", "d"] ["a", "b", "c"] ↔
      "b" ∈ ["a", "b", "c"] ∧ "b" ∉ ["a", "d"]) ∧
    SetUpdateCall.addCall ["z"] ∉ updateSetCalls ["a"] ["a"] ∧
    SetUpdateCall.removeCall ["z"] ∉ updateSetCalls ["a"] ["a"] := by
  refine ⟨(updateSet_diff_correct ["a", "d"] ["a", "b", "c"]).1 "b", ?_, ?_⟩
  · exact (updateSet_diff_correct ["a"] ["a"]).2.2.2.2.1 (by decide) ["z"]
  · exact (updateSet_diff_correct ["a"] ["a"]).2.2.2.2.2 (by decide) ["z"]

/-- C4: applying the same desired-membership update twice is idempotent: in
the imperative variant, the diff recomputed against the membership produced
by the first application yields empty add/remove lists and the membership no
longer changes; in the declarative variant the filter payload is a function
of the name and the desired IDs alone, its `is_any` enumeration is exactly
the desired list, and re-applying it leaves the provider-computed membership
fixed. -/
theorem updateSet_idempotent (current desired : List String) (name : String) :
    (idsToAdd (applyImperative current desired) desired = [] ∧
      idsToRemove (applyImperative current desired) desired = [] ∧
      applyImperative (applyImperative current desired) desired
        = applyImperative current desired) ∧
    ((updateSetPayload name desired).filter.is_any = desired ∧
      declApply (declApply current (updateSetPayload name desired))
          (updateSetPayload name desired)
        = declApply current (updateSetPayload name desired)) := by
  refine ⟨⟨idsToAdd_applyImperative current desired,
    idsToRemove_applyImperative current desired, ?_⟩, ⟨?_, rfl⟩⟩
  · rw [applyImperative, idsToAdd_applyImperative, idsToRemove_applyImperative]
    simp
  · rw [updateSetPayload]
    split
    · rfl
    · simp_all [List.length_pos]

/-! ### Price conversion (C7)

Numbers are modelled over `ℚ`: the spec tolerates only "standard floating
rounding", and the write/read conversions the code performs —
`String(Math.round(p.price * 100))` on write and `parseFloat(p.price) / 100`
on read — are exact multiply/round and divide over the numeric values.
`Math.round` rounds half toward positive infinity, as Mathlib's `round`. -/

/-- Write-side conversion in `addProducts` / `updateProduct`:
`Math.round(p.price * 100)`, the minor-unit integer sent to the provider. -/
def writePriceMinor (price : ℚ) : ℤ :=
  round (price * 100)

/-- Read-side conversion in `getProducts`: `parseFloat(p.price) / 100`. -/
def readPriceMajor (minor : ℚ) : ℚ :=
  minor / 100

/-- C7: for every domain price expressible with at most two decimal places
(`p = n / 100` for an integer `n`), the provider receives exactly `n` minor
units and reading that value back reproduces `p` exactly — no drift across a
write/read cycle. -/
theorem price_roundtrip (p : ℚ) (n : ℤ) (h : p = (n : ℚ) / 100) :
    writePriceMinor p = n ∧ readPriceMajor ((writePriceMinor p : ℤ) : ℚ) = p := by
  have hw : writePriceMinor p = n := by
    rw [writePriceMinor, h]
    have : (n : ℚ) / 100 * 100 = (n : ℚ) := by ring
    rw [this, round_intCast]
  refine ⟨hw, ?_⟩
  rw [readPriceMajor, hw, h]

/-- C7 witness: the spec's example price `19.99` round-trips exactly. -/
theorem price_roundtrip_witness :
    writePriceMinor (19.99 : ℚ) = 1999 ∧
      readPriceMajor ((writePriceMinor (19.99 : ℚ) : ℤ) : ℚ) = (19.99 : ℚ) :=
  price_roundtrip (19.99 : ℚ) 1999 (by norm_num)

/-! ### SKU generation for bulk add (C8)

`BulkAddProductsModal.handleSubmit` builds the set of currently known
retailer IDs, then for each product row draws random 6-digit candidates in a
do/while loop, re-rolling while the candidate is already taken, and adds the
accepted SKU to the taken set before processing the next row.  The random
draws are modelled by a (finite prefix of the) candidate stream; `none`
means the modelled stream ran out before a fresh candidate appeared. -/

/-- The do/while re-roll: return the first candidate of the stream not in
`taken`, together with the unconsumed remainder of the stream. -/
def genSku (taken : List String) : List String → Option (String × List String)
  | [] => none
  | c :: rest => if taken.contains c then genSku taken rest else some (c, rest)

/-- The per-row loop of `handleSubmit`: assign one fresh SKU per row,
threading the taken set (`existingRetailerIds.add(newRetailerId)`) and the
candidate stream. -/
def assignSkus (taken : List String) : Nat → List String → Option (List String)
  | 0, _ => some []
  | n + 1, stream =>
    match genSku taken stream with
    | none => none
    | some (sku, rest) =>
      match assignSkus (sku :: taken) n rest with
      | none => none
      | some skus => some (sku :: skus)

theorem genSku_fresh {taken stream : List String} {c : String} {rest : List String}
    (h : genSku taken stream = some (c, rest)) : c ∉ taken := by
  induction stream with
  | nil => simp [genSku] at h
  | cons hd tl ih =>
    rw [genSku] at h
    by_cases hc : taken.contains hd
    · rw [if_pos hc] at h
      exact ih h
    · rw [if_neg hc] at h
      cases h
      simp_all

theorem assignSkus_spec :
    ∀ (n : Nat) (taken stream skus : List String),
      assignSkus taken n stream = some skus →
        (∀ s ∈ skus, s ∉ taken) ∧ skus.Nodup ∧ skus.length = n := by
  intro n
  induction n with
  | zero =>
    intro taken stream skus h
    rw [assignSkus] at h
    cases h
    simp
  | succ m ih =>
    intro taken stream skus h
    rw [assignSkus] at h
    cases hg : genSku taken stream with
    | none => rw [hg] at h; cases h
    | some p =>
      obtain ⟨sku, rest⟩ := p
      rw [hg] at h
      dsimp only at h
      cases ha : assignSkus (sku :: taken) m rest with
      | none => rw [ha] at h; cases h
      | some tailSkus =>
        rw [ha] at h
        cases h
        obtain ⟨htaken, hnd, hlen⟩ := ih (sku :: taken) rest tailSkus ha
        have hfresh : sku ∉ taken := genSku_fresh hg
        refine ⟨?_, ?_, by simp [hlen]⟩
        · intro s hs
          rcases List.mem_cons.mp hs with rfl | hs
          · exact hfresh
          · have := htaken s hs
            simp_all
        · rw [List.nodup_cons]
          refine ⟨fun hmem => ?_, hnd⟩
          have := htaken sku hmem
          simp_all

/-- C8: whenever `handleSubmit`'s SKU-assignment loop completes over the
currently known products, every generated `retailer_id` is absent from the
retailer IDs of all currently known products, the generated SKUs are
pairwise distinct within the submission, and there is one per row —
preserving catalog-wide uniqueness of `retailer_id`. -/
theorem addProducts_sku_fresh (existingRetailerIds : List String) (rows : Nat)
    (stream skus : List String)
    (h : assignSkus existingRetailerIds rows stream = some skus) :
    (∀ s ∈ skus, s ∉ existingRetailerIds) ∧ skus.Nodup ∧ skus.length = rows :=
  assignSkus_spec rows existingRetailerIds stream skus h

/-- C8 witness: with known SKU `100001` and candidate stream
`100001, 100002, 100002, 100003`, both collisions are re-rolled and the two
rows receive the fresh, distinct SKUs `100002` and `100003`. -/
theorem addProducts_sku_fresh_witness :
    (∀ s ∈ ["100002", "100003"], s ∉ ["100001"]) ∧
      List.Nodup ["100002", "100003"] ∧ List.length ["100002", "100003"] = 2 :=
  addProducts_sku_fresh ["100001"] 2 ["100001", "100002", "100002", "100003"]
    ["100002", "100003"] (by decide)

/-! ### Batch sub-responses and write reconciliation (second service variant)

A batch sub-response is `{code, body}` where `body` is a JSON string that
needs a second decode.  A sub-response slot may also be JSON `null` (the
code guards every access with `res && ...`), modelled as `Option`. -/

/-- The nested provider error record (`errorBody.error`); every field the
code probes may be absent. -/
structure FBErr where
  message : Option String
  type : Option String
  code : Option Int
  error_subcode : Option Int
deriving DecidableEq

/-- Result of `JSON.parse(res.body)` on a write sub-response: either the
parse throws (keeping the raw body text) or yields an object whose `error`
field may be absent. -/
inductive BodyParse where
  | raw (s : String)
  | parsed (error : Option FBErr)
deriving DecidableEq

/-- One batch sub-response `{code, body}`. -/
structure SubResponse where
  code : Nat
  body : BodyParse
deriving DecidableEq

/-- JS truthiness of the optional string `error.message`: absent and the
empty string are falsy. -/
def truthyStr : Option String → Bool
  | none => false
  | some s => s != ""

/-- Template interpolation of a possibly-undefined number (`${code}`). -/
def jsNumStr : Option Int → String
  | none => "undefined"
  | some n => toString n

/-- Template interpolation of a possibly-undefined string (`${type}`). -/
def jsStrStr : Option String → String
  | none => "undefined"
  | some s => s

/-- `error_subcode ? `, Subcode: ${error_subcode}` : ''` — absent and `0`
are falsy. -/
def subcodePart : Option Int → String
  | none => ""
  | some n => if n = 0 then "" else ", Subcode: " ++ toString n

/-- The `OAUTH_DETAILED_ERROR` appendix (facebookService.ts, second
variant). -/
def OAUTH_DETAILED_ERROR : String :=
  "\n\nAuthentication Error (OAuthException): This can happen for several reasons. Please check the following:\n1. Session Expired: Your login may have timed out. Please try disconnecting and logging back in.\n2. Permissions: Ensure you granted the \x27catalog_management\x27 permission during login.\n3. Facebook App Settings: Verify your App ID is correct and that your Facebook App is published (or you are listed as a developer/tester if it\x27s in development mode).\n4. User Role: You must be an admin of the Business Manager account that owns the product catalog."

/-- `isOAuthError` (second variant): truthy `errorBody.error` whose `type`
is `OAuthException` or whose `code` is `1`; used on transport-level error
bodies. -/
def isOAuthError (error : Option FBErr) : Bool :=
  match error with
  | some err => err.type == some "OAuthException" || err.code == some 1
  | none => false

/-- The per-failure detail tail shared by `addProducts`, `deleteProducts`
and `deleteSets`: with a parsed `error` carrying a truthy `message`, report
message, code, type and (truthy) subcode; with a parsed body lacking these,
fall back to a generic line; with an unparseable body, echo the raw body. -/
def detailSuffix (r : SubResponse) : String :=
  match r.body with
  | BodyParse.raw s => "Could not parse error response. Body: " ++ s
  | BodyParse.parsed e =>
    match e with
    | some err =>
      if truthyStr err.message then
        jsStrStr err.message ++ " (Code: " ++ jsNumStr err.code ++ ", Type: "
          ++ jsStrStr err.type ++ subcodePart err.error_subcode ++ ")"
      else "An unknown API error occurred."
    | none => "An unknown API error occurred."

/-- Whether a failing sub-response trips the `isAuthError` flag in the write
reconciliation loops: only inside the parsed, truthy-message branch does the
code test `type === 'OAuthException' || code === 1`. -/
def authTrigger (r : SubResponse) : Bool :=
  match r.body with
  | BodyParse.raw _ => false
  | BodyParse.parsed e =>
    match e with
    | some err =>
      truthyStr err.message && (err.type == some "OAuthException" || err.code == some 1)
    | none => false

/-- `batchResponses.map((res, index) => ({res, index})).filter(({res}) => res && res.code !== 200)`:
the failing positions, in order, with the (present) sub-response extracted. -/
def failing (rs : List (Option SubResponse)) : List (Nat × SubResponse) :=
  rs.enum.filterMap (fun p =>
    match p.2 with
    | some r => if r.code ≠ 200 then some (p.1, r) else none
    | none => none)

/-- The overall error a failed batched write raises: the per-position
details, the `isAuthError` flag, and the assembled message (header, newline,
newline-joined details, optional OAuth appendix). -/
structure AggregateError where
  details : List String
  isAuth : Bool
  message : String
deriving DecidableEq

/-- `${failures.length} of ${total} <what>:\n${errorDetails}` plus the OAuth
appendix when flagged. -/
def aggMessage (nFail nTot : Nat) (what : String) (details : List String)
    (isAuth : Bool) : String :=
  toString nFail ++ " of " ++ toString nTot ++ " " ++ what ++ ":\n"
    ++ String.intercalate "\n" details
    ++ (if isAuth then OAUTH_DETAILED_ERROR else "")

/-- Per-failure detail line of `addProducts`:
`- Product "${name}" (SKU: ${retailer_id}): ...`. -/
structure NewProduct where
  retailer_id : String
  name : String
  description : String
  brand : String
  link : String
  price : ℚ
  currency : String
  imageUrl : String
  inventory : Nat
  videoUrl : Option String
deriving DecidableEq

def defaultNewProduct : NewProduct :=
  { retailer_id := "", name := "", description := "", brand := "", link := ""
    price := 0, currency := "", imageUrl := "", inventory := 0, videoUrl := none }

def addDetail (p : NewProduct) (r : SubResponse) : String :=
  "- Product \"" ++ p.name ++ "\" (SKU: " ++ p.retailer_id ++ "): " ++ detailSuffix r

/-- Per-failure detail line of `deleteProducts`: `- Product ID ${id}: ...`. -/
def deleteProductDetail (productId : String) (r : SubResponse) : String :=
  "- Product ID " ++ productId ++ ": " ++ detailSuffix r

/-- Per-failure detail line of `deleteSets`: `- Set ID ${id}: ...`. -/
def deleteSetDetail (setId : String) (r : SubResponse) : String :=
  "- Set ID " ++ setId ++ ": " ++ detailSuffix r

/-- Reconciliation step of `addProducts` after a successful batch call:
collect the failing positions; with none, return the full response list;
otherwise raise one aggregate error built from the original input at each
failing index. -/
def addProductsReconcile (newProducts : List NewProduct)
    (rs : List (Option SubResponse)) :
    Except AggregateError (List (Option SubResponse)) :=
  let fails := failing rs
  if 0 < fails.length then
    let details := fails.map (fun q => addDetail (newProducts.getD q.1 defaultNewProduct) q.2)
    let isAuth := fails.any (fun q => authTrigger q.2)
    Except.error
      { details := details
        isAuth := isAuth
        message := aggMessage fails.length newProducts.length
          "products failed to be added" details isAuth }
  else Except.ok rs

/-- Reconciliation step of `deleteProducts`. -/
def deleteProductsReconcile (productIds : List String)
    (rs : List (Option SubResponse)) :
    Except AggregateError (List (Option SubResponse)) :=
  let fails := failing rs
  if 0 < fails.length then
    let details := fails.map (fun q => deleteProductDetail (productIds.getD q.1 "") q.2)
    let isAuth := fails.any (fun q => authTrigger q.2)
    Except.error
      { details := details
        isAuth := isAuth
        message := aggMessage fails.length productIds.length
          "products failed to be deleted" details isAuth }
  else Except.ok rs

/-- Reconciliation step of `deleteSets`. -/
def deleteSetsReconcile (setIds : List String)
    (rs : List (Option SubResponse)) :
    Except AggregateError (List (Option SubResponse)) :=
  let fails := failing rs
  if 0 < fails.length then
    let details := fails.map (fun q => deleteSetDetail (setIds.getD q.1 "") q.2)
    let isAuth := fails.any (fun q => authTrigger q.2)
    Except.error
      { details := details
        isAuth := isAuth
        message := aggMessage fails.length setIds.length
          "sets failed to be deleted" details isAuth }
  else Except.ok rs

/-- A position is in `failing rs` exactly when its slot holds a present
sub-response with a non-200 code. -/
theorem mem_failing {rs : List (Option SubResponse)} {i : Nat} {r : SubResponse} :
    (i, r) ∈ failing rs ↔ rs[i]? = some (some r) ∧ r.code ≠ 200 := by
  unfold failing
  rw [List.mem_filterMap]
  constructor
  · rintro ⟨⟨j, slot⟩, hmem, hf⟩
    match slot with
    | none => simp at hf
    | some r' =>
      dsimp only at hf
      by_cases hc : r'.code ≠ 200
      · rw [if_pos hc] at hf
        obtain ⟨rfl, rfl⟩ := Prod.mk.injEq .. ▸ Option.some.injEq .. ▸ hf
        refine ⟨?_, hc⟩
        rw [← List.mk_mem_enum_iff_getElem?]
        exact hmem
      · rw [if_neg hc] at hf
        cases hf
  · rintro ⟨hget, hc⟩
    refine ⟨(i, some r), ?_, ?_⟩
    · rw [List.mk_mem_enum_iff_getElem?]
      exact hget
    · dsimp only
      rw [if_pos hc]

/-- With every present slot carrying code 200 there are no failing
positions. -/
theorem failing_eq_nil {rs : List (Option SubResponse)}
    (h : ∀ slot ∈ rs, ∀ r, slot = some r → r.code = 200) : failing rs = [] := by
  rw [failing, List.filterMap_eq_nil_iff]
  rintro ⟨j, slot⟩ hmem
  match slot with
  | none => simp
  | some r =>
    dsimp only
    have : r.code = 200 := by
      refine h (some r) ?_ r rfl
      have := List.mk_mem_enum_iff_getElem?.mp hmem
      exact List.getElem?_mem this
    rw [if_neg (by simp [this])]

/-- C1: for each batched write (`addProducts`, `deleteProducts`,
`deleteSets`) whose batch call succeeds: when every present sub-response has
code 200, the operation returns the full list of sub-responses; when one or
more have a non-200 code, it raises exactly one aggregate error whose detail
lines are built from precisely the failing positions (and no successful
position), each line carrying the identifying field of the original input at
that index (product name and SKU, or the ID), and, when the nested error
body parses with a message, the provider's message and code. -/
theorem batched_write_partial_failures (newProducts : List NewProduct)
    (productIds setIds : List String) (rs : List (Option SubResponse)) :
    ((∀ slot ∈ rs, ∀ r, slot = some r → r.code = 200) →
      addProductsReconcile newProducts rs = Except.ok rs ∧
      deleteProductsReconcile productIds rs = Except.ok rs ∧
      deleteSetsReconcile setIds rs = Except.ok rs) ∧
    ((∃ (i : Nat) (r : SubResponse), rs[i]? = some (some r) ∧ r.code ≠ 200) →
      (∃ e, addProductsReconcile newProducts rs = Except.error e ∧
        e.details = (failing rs).map
          (fun q => addDetail (newProducts.getD q.1 defaultNewProduct) q.2)) ∧
      (∃ e, deleteProductsReconcile productIds rs = Except.error e ∧
        e.details = (failing rs).map
          (fun q => deleteProductDetail (productIds.getD q.1 "") q.2)) ∧
      (∃ e, deleteSetsReconcile setIds rs = Except.error e ∧
        e.details = (failing rs).map
          (fun q => deleteSetDetail (setIds.getD q.1 "") q.2))) ∧
    (∀ (i : Nat) (r : SubResponse),
      ((i, r) ∈ failing rs ↔ rs[i]? = some (some r) ∧ r.code ≠ 200)) ∧
    (∀ p r, ∃ tail, addDetail p r
      = "- Product \"" ++ p.name ++ "\" (SKU: " ++ p.retailer_id ++ "): " ++ tail) ∧
    (∀ pid r, ∃ tail, deleteProductDetail pid r
      = "- Product ID " ++ pid ++ ": " ++ tail) ∧
    (∀ sid r, ∃ tail, deleteSetDetail sid r = "- Set ID " ++ sid ++ ": " ++ tail) ∧
    (∀ r err, r.body = BodyParse.parsed (some err) → truthyStr err.message = true →
      detailSuffix r = jsStrStr err.message ++ " (Code: " ++ jsNumStr err.code
        ++ ", Type: " ++ jsStrStr err.type ++ subcodePart err.error_subcode ++ ")") := by
  refine ⟨?_, ?_, ?_, ?_, ?_, ?_, ?_⟩
  · intro h
    have hnil : failing rs = [] := failing_eq_nil h
    refine ⟨?_, ?_, ?_⟩ <;>
      simp [addProductsReconcile, deleteProductsReconcile, deleteSetsReconcile, hnil]
  · rintro ⟨i, r, hget, hcode⟩
    have hmem : (i, r) ∈ failing rs := mem_failing.mpr ⟨hget, hcode⟩
    have hpos : 0 < (failing rs).length :=
      List.length_pos.mpr (List.ne_nil_of_mem hmem)
    refine ⟨?_, ?_, ?_⟩ <;>
      · simp only [addProductsReconcile, deleteProductsReconcile, deleteSetsReconcile]
        rw [if_pos hpos]
        exact ⟨_, rfl, rfl⟩
  · intro i r
    exact mem_failing
  · intro p r
    exact ⟨detailSuffix r, rfl⟩
  · intro pid r
    exact ⟨detailSuffix r, rfl⟩
  · intro sid r
    exact ⟨detailSuffix r, rfl⟩
  · intro r err hbody hmsg
    simp [detailSuffix, hbody, hmsg]

/-- A successful sub-response with an empty parsed body. -/
def okResp : SubResponse := { code := 200, body := BodyParse.parsed none }

/-- A failing sub-response with a parsed, message-bearing provider error. -/
def badResp : SubResponse :=
  { code := 500
    body := BodyParse.parsed (some
      { message := some "Invalid parameter", type := some "GraphMethodException"
        code := some 100, error_subcode := none }) }

/-- The spec scenario: a batch of five whose positions 1 and 3 failed. -/
def sampleBatch : List (Option SubResponse) :=
  [some okResp, some badResp, some okResp, some badResp, some okResp]

/-- C1 witness: an all-success singleton batch returns the full response
list for each of the three operations, and in the five-element scenario the
failing-position characterization holds at position 1. -/
theorem batched_write_partial_failures_witness :
    (addProductsReconcile [defaultNewProduct] [some okResp]
        = Except.ok [some okResp] ∧
      deleteProductsReconcile ["10"] [some okResp] = Except.ok [some okResp] ∧
      deleteSetsReconcile ["20"] [some okResp] = Except.ok [some okResp]) ∧
    ((1, badResp) ∈ failing sampleBatch ↔
      sampleBatch[1]? = some (some badResp) ∧ badResp.code ≠ 200) := by
  constructor
  · refine (batched_write_partial_failures [defaultNewProduct] ["10"] ["20"]
      [some okResp]).1 ?_
    intro slot hs r hr
    simp only [List.mem_singleton] at hs
    subst hs
    cases hr
    rfl
  · exact (batched_write_partial_failures [] [] [] sampleBatch).2.2.1 1 badResp

/-- A failing sub-response whose parsed body carries `type: OAuthException`
but no `message`: the repository's own transport-level classifier
`isOAuthError` accepts it, yet the write-reconciliation loops only set
`isAuthError` inside the truthy-`message` branch. -/
def oauthNoMsgErr : FBErr :=
  { message := none, type := some "OAuthException", code := none, error_subcode := none }

def oauthNoMsgResp : SubResponse :=
  { code := 400, body := BodyParse.parsed (some oauthNoMsgErr) }

def productA : NewProduct :=
  { defaultNewProduct with name := "A", retailer_id := "111111" }

/-- A failing sub-response with a message-bearing OAuthException error. -/
def oauthMsgResp : SubResponse :=
  { code := 400
    body := BodyParse.parsed (some
      { message := some "Session expired", type := some "OAuthException"
        code := some 190, error_subcode := some 460 }) }

/-- C5 counterexample: a batch whose single failing sub-response parses and
carries `type: 'OAuthException'` (so `isOAuthError` classifies it as an
authentication error) but has no `message`; the aggregate error raised by
`addProducts` is NOT flagged as authentication-class (`isAuth = false`, no
OAuth guidance appended), contradicting the claim. -/
theorem addProducts_auth_flag_counterexample :
    isOAuthError (some oauthNoMsgErr) = true ∧
    addProductsReconcile [productA] [some oauthNoMsgResp] = Except.error
      { details := ["- Product \"A\" (SKU: 111111): An unknown API error occurred."]
        isAuth := false
        message := "1 of 1 products failed to be added:\n- Product \"A\" (SKU: 111111): An unknown API error occurred." } := by
  exact ⟨rfl, rfl⟩

/-- C5 (amended): if any failing sub-response's nested error body parses and
carries a truthy `message` together with type `'OAuthException'` or code 1,
then the single aggregate error raised by `addProducts` is flagged as an
authentication-class error and the detailed OAuth guidance is appended to
its message, even when the batch also contains successful sub-responses; a
batch with no failing positions raises nothing at all. -/
theorem addProducts_auth_flagging (ps : List NewProduct)
    (rs : List (Option SubResponse)) :
    ((failing rs).any (fun q => authTrigger q.2) = true →
      ∃ e, addProductsReconcile ps rs = Except.error e ∧ e.isAuth = true ∧
        ∃ pre, e.message = pre ++ OAUTH_DETAILED_ERROR) ∧
    (failing rs = [] → addProductsReconcile ps rs = Except.ok rs) := by
  constructor
  · intro hAuth
    have hne : failing rs ≠ [] := by
      intro hnil
      rw [hnil] at hAuth
      simp at hAuth
    have hpos : 0 < (failing rs).length := List.length_pos.mpr hne
    simp only [addProductsReconcile]
    rw [if_pos hpos]
    refine ⟨_, rfl, hAuth, ?_⟩
    rw [aggMessage, hAuth]
    exact ⟨_, by rw [if_pos rfl]⟩
  · intro h
    simp [addProductsReconcile, h]

/-- Projection used to state the C5 witness without binders. -/
def reconcileIsAuth (x : Except AggregateError (List (Option SubResponse))) : Bool :=
  match x with
  | Except.error e => e.isAuth
  | Except.ok _ => false

/-- C5 witness: a mixed batch (one success, one message-bearing
OAuthException failure) is flagged as authentication-class, and an empty
batch raises nothing. -/
theorem addProducts_auth_flagging_witness :
    reconcileIsAuth (addProductsReconcile [defaultNewProduct, productA]
      [some okResp, some oauthMsgResp]) = true ∧
    addProductsReconcile [productA] [] = Except.ok [] := by
  constructor
  · obtain ⟨e, he, ha, -⟩ :=
      (addProducts_auth_flagging [defaultNewProduct, productA]
        [some okResp, some oauthMsgResp]).1 (by decide)
    rw [he]
    exact ha
  · exact (addProducts_auth_flagging [productA] []).2 rfl

/-! ### Batch envelope (C6)

`batchRequest` (both service variants) marshals the whole request list into
the single `batch` form field of one physical POST
(`formData.append('batch', JSON.stringify(requests))`); nothing in the
repository splits a request list by a maximum batch size. -/

inductive BatchMethod where
  | GET
  | POST
  | DELETE
deriving DecidableEq

/-- One logical batch sub-operation `{method, relative_url, body?}`. -/
structure BatchReq where
  method : BatchMethod
  relative_url : String
  body : Option String
deriving DecidableEq

/-- The physical batch calls `batchRequest` issues for a logical request
list: always exactly one, containing the entire list. -/
def physicalBatchCalls (requests : List BatchReq) : List (List BatchReq) :=
  [requests]

def reqA : BatchReq := { method := BatchMethod.DELETE, relative_url := "1", body := none }

def reqB : BatchReq := { method := BatchMethod.DELETE, relative_url := "2", body := none }

/-- C6 counterexample: with a configured maximum batch size of 1 and two
sub-operations, the claim "no physical call contains more sub-operations
than the maximum" is false — the single physical call the code issues
contains both. -/
theorem batch_envelope_split_counterexample :
    ¬ ∀ call ∈ physicalBatchCalls [reqA, reqB], call.length ≤ 1 := by
  decide

/-- C6 (amended): the batch envelope builder performs no size-based
splitting: it issues exactly one physical batch call containing the entire
ordered list of logical sub-operations, regardless of any maximum batch
size, and the concatenation of the physical calls is the original list, so
logical response index i corresponds to input index i positionally. -/
theorem batch_envelope_single_call (requests : List BatchReq) :
    physicalBatchCalls requests = [requests] ∧
    (physicalBatchCalls requests).length = 1 ∧
    (physicalBatchCalls requests).flatten = requests := by
  refine ⟨rfl, rfl, ?_⟩
  simp [physicalBatchCalls]

/-! ### Pagination merge (`getProducts`, second service variant)

The provider is modelled by the sequence of fetch results it serves, in
fetch order: each is either a page (`data` array plus optional
`paging.next` cursor) or a failed fetch carrying the parsed error body.
The while-loop of `getProducts` consumes this sequence: it appends
non-empty `data` arrays to the accumulator, keeps following while
`paging.next` is present, stops at the first page without it, and throws
the page's error on a failed fetch. -/

/-- A raw product object of a page's `data` array, with the fields
`getProducts` reads; `price` is the numeric value `parseFloat` yields. -/
structure RawProduct where
  id : String
  retailer_id : String
  name : String
  description : String
  brand : String
  url : String
  price : ℚ
  currency : String
  image_url : String
  inventory : Option Nat
  video_url : Option String
deriving DecidableEq

/-- The domain product `getProducts` maps each raw object to. -/
structure Product where
  id : String
  retailer_id : String
  name : String
  description : String
  brand : String
  link : String
  price : ℚ
  currency : String
  imageUrl : String
  inventory : Nat
  videoUrl : Option String
deriving DecidableEq

/-- The field mapping of `getProducts`: `link: p.url`,
`price: parseFloat(p.price) / 100`, `inventory: p.inventory || 0`. -/
def toProduct (p : RawProduct) : Product :=
  { id := p.id, retailer_id := p.retailer_id, name := p.name
    description := p.description, brand := p.brand, link := p.url
    price := p.price / 100, currency := p.currency, imageUrl := p.image_url
    inventory := p.inventory.getD 0, videoUrl := p.video_url }

/-- One served page: `data` array (possibly absent) and optional
`paging.next` cursor. -/
structure Page where
  data : Option (List RawProduct)
  next : Option String
deriving DecidableEq

/-- Parsed error body of a failed page fetch (`errorData`). -/
structure FetchFail where
  error : Option FBErr
deriving DecidableEq

/-- The message `getProducts` throws for a failed page fetch:
`errorData.error?.message || 'An unknown API error occurred while paginating.'`
plus the OAuth appendix when `isOAuthError(errorData)`. -/
def pageErrMessage (e : FetchFail) : String :=
  (match e.error with
   | some err =>
     match err.message with
     | some m => if m = "" then "An unknown API error occurred while paginating." else m
     | none => "An unknown API error occurred while paginating."
   | none => "An unknown API error occurred while paginating.")
  ++ (if isOAuthError e.error then OAUTH_DETAILED_ERROR else "")

/-- What a page contributes to the accumulator:
`if (responseData.data && responseData.data.length > 0) allProductsData = allProductsData.concat(responseData.data)`. -/
def pageChunk (pg : Page) : List RawProduct :=
  match pg.data with
  | some l => if 0 < l.length then l else []
  | none => []

/-- The pagination loop over the served fetch results.  The `[]` case is a
model artifact: the loop would fetch a further page, but the modelled
provider served none; it is unreachable whenever a cursor-free page or a
failure occurs before the sequence runs out. -/
def paginate : List (Except FetchFail Page) → Except String (List RawProduct)
  | [] => Except.error "model: cursor pending but no further page served"
  | Except.error e :: _ => Except.error (pageErrMessage e)
  | Except.ok pg :: rest =>
    match pg.next with
    | none => Except.ok (pageChunk pg)
    | some _ =>
      match paginate rest with
      | Except.error m => Except.error m
      | Except.ok tail => Except.ok (pageChunk pg ++ tail)

/-- `getProducts`: run the pagination loop, then map the accumulated raw
objects into domain products. -/
def getProductsModel (pages : List (Except FetchFail Page)) :
    Except String (List Product) :=
  match paginate pages with
  | Except.error m => Except.error m
  | Except.ok l => Except.ok (l.map toProduct)

theorem paginate_ok_run (ps : List Page) (last : Page)
    (hps : ∀ pg ∈ ps, pg.next.isSome) (hlast : last.next = none) :
    paginate ((ps ++ [last]).map Except.ok)
      = Except.ok (((ps ++ [last]).map pageChunk).flatten) := by
  induction ps with
  | nil =>
    simp only [List.nil_append, List.map_cons, List.map_nil]
    rw [paginate, hlast]
    simp
  | cons hd tl ih =>
    have hhd : hd.next.isSome := hps hd (List.mem_cons_self hd tl)
    obtain ⟨cur, hcur⟩ := Option.isSome_iff_exists.mp hhd
    have htl : ∀ pg ∈ tl, pg.next.isSome := fun pg hpg => hps pg (List.mem_cons_of_mem hd hpg)
    simp only [List.cons_append, List.map_cons]
    rw [paginate, hcur, ih htl]
    simp

theorem paginate_err_run (ps : List Page) (e : FetchFail)
    (rest : List (Except FetchFail Page))
    (hps : ∀ pg ∈ ps, pg.next.isSome) :
    paginate (ps.map Except.ok ++ Except.error e :: rest)
      = Except.error (pageErrMessage e) := by
  induction ps with
  | nil =>
    simp only [List.map_nil, List.nil_append]
    rw [paginate]
  | cons hd tl ih =>
    have hhd : hd.next.isSome := hps hd (List.mem_cons_self hd tl)
    obtain ⟨cur, hcur⟩ := Option.isSome_iff_exists.mp hhd
    have htl : ∀ pg ∈ tl, pg.next.isSome := fun pg hpg => hps pg (List.mem_cons_of_mem hd hpg)
    simp only [List.map_cons, List.cons_append]
    rw [paginate, hcur, ih htl]

/-- C2: when the provider serves pages whose every non-final page carries a
`paging.next` cursor and whose final page lacks one, `getProducts` returns
the in-order concatenation of every page's data array (mapped into domain
products), tolerating empty data arrays that still carry a cursor; when a
page fetch fails after any run of cursor-bearing pages, `getProducts`
raises that page's error and returns no partial collection. -/
theorem getProducts_pagination (ps : List Page) (last : Page) (e : FetchFail)
    (rest : List (Except FetchFail Page)) :
    ((∀ pg ∈ ps, pg.next.isSome) → last.next = none →
      getProductsModel ((ps ++ [last]).map Except.ok)
        = Except.ok ((((ps ++ [last]).map pageChunk).flatten).map toProduct)) ∧
    ((∀ pg ∈ ps, pg.next.isSome) →
      getProductsModel (ps.map Except.ok ++ Except.error e :: rest)
        = Except.error (pageErrMessage e)) := by
  constructor
  · intro hps hlast
    rw [getProductsModel, paginate_ok_run ps last hps hlast]
  · intro hps
    rw [getProductsModel, paginate_err_run ps e rest hps]

def rp0 : RawProduct :=
  { id := "1", retailer_id := "101010", name := "item", description := ""
    brand := "", url := "", price := 1999, currency := "USD", image_url := ""
    inventory := some 1, video_url := none }

def page100 : Page := { data := some (List.replicate 100 rp0), next := some "next" }

def page37 : Page := { data := some (List.replicate 37 rp0), next := none }

/-- A page with an empty data array that still carries a cursor. -/
def emptyPage : Page := { data := some [], next := some "n" }

/-- A failed page fetch whose error body carries no `error` record. -/
def failFetch : FetchFail := { error := none }

theorem page100_next : page100.next.isSome := rfl

theorem emptyPage_next : emptyPage.next.isSome := rfl

set_option maxRecDepth 4000 in
/-- C2 witness: pages of 100, 100 and 37 items (cursors on the first two
only) merge into exactly 237 items; a fetch failure in place of the third
page discards the accumulated 200 and raises; and an empty page carrying a
cursor is followed, not treated as the end. -/
theorem getProducts_pagination_witness :
    getProductsModel [Except.ok page100, Except.ok page100, Except.ok page37]
      = Except.ok (List.replicate 237 (toProduct rp0)) ∧
    getProductsModel [Except.ok page100, Except.ok page100, Except.error failFetch]
      = Except.error (pageErrMessage failFetch) ∧
    getProductsModel [Except.ok emptyPage, Except.ok page37]
      = Except.ok (List.replicate 37 (toProduct rp0)) := by
  have hps2 : ∀ pg ∈ [page100, page100], pg.next.isSome := by
    intro pg hpg
    simp only [List.mem_cons, List.not_mem_nil, or_false] at hpg
    rcases hpg with rfl | rfl <;> exact page100_next
  have hps1 : ∀ pg ∈ [emptyPage], pg.next.isSome := by
    intro pg hpg
    simp only [List.mem_singleton] at hpg
    subst hpg
    exact emptyPage_next
  refine ⟨?_, ?_, ?_⟩
  · have h := (getProducts_pagination [page100, page100] page37 failFetch []).1 hps2 rfl
    show getProductsModel (([page100, page100] ++ [page37]).map Except.ok) = _
    rw [h]
    simp only [Except.ok.injEq]
    simp [pageChunk, page100, page37, List.map_replicate]
  · have h := (getProducts_pagination [page100, page100] page37 failFetch []).2 hps2
    show getProductsModel ([page100, page100].map Except.ok
      ++ Except.error failFetch :: []) = _
    exact h
  · have h := (getProducts_pagination [emptyPage] page37 failFetch []).1 hps1 rfl
    show getProductsModel (([emptyPage] ++ [page37]).map Except.ok) = _
    rw [h]
    simp only [Except.ok.injEq]
    simp [pageChunk, page37, emptyPage, List.map_replicate]

/-! ### Best-effort status refresh (`refreshProductsStatus`)

After a successful batch call, the loop walks the sub-responses: a present
slot with code 200 and a parseable body contributes
`statusMap.set(body.id, {reviewStatus, rejectionReasons})`; every other
slot only logs a warning and contributes nothing.  The loop never throws,
so per-ID failures cannot fail the refresh.  The JS `Map` is modelled as a
lookup function updated in iteration order (later writes override). -/

/-- Parsed body of a status read: `{id, review_status?, rejection_reasons?}`. -/
structure StatusBody where
  id : String
  review_status : Option String
  rejection_reasons : Option (List String)
deriving DecidableEq

inductive StatusBodyParse where
  | raw (s : String)
  | parsed (b : StatusBody)
deriving DecidableEq

/-- One status sub-response `{code, body}`. -/
structure StatusResp where
  code : Nat
  body : StatusBodyParse
deriving DecidableEq

/-- One snapshot entry: `body.review_status || 'pending'` and
`body.rejection_reasons || []`. -/
structure ProductStatus where
  reviewStatus : String
  rejectionReasons : List String
deriving DecidableEq

def statusOf (b : StatusBody) : ProductStatus :=
  { reviewStatus :=
      match b.review_status with
      | some s => if s = "" then "pending" else s
      | none => "pending"
    rejectionReasons := b.rejection_reasons.getD [] }

/-- One iteration of the `forEach`: only a present slot with code 200 and a
parseable body writes its `body.id` entry. -/
def refreshStep (m : String → Option ProductStatus) (slot : Option StatusResp) :
    String → Option ProductStatus :=
  match slot with
  | some r =>
    if r.code = 200 then
      match r.body with
      | StatusBodyParse.parsed b => fun x => if x = b.id then some (statusOf b) else m x
      | StatusBodyParse.raw _ => m
    else m
  | none => m

/-- The StatusSnapshot `refreshProductsStatus` builds from the
sub-responses of a successful batch call (a total function: per-ID failures
never raise). -/
def refreshProductsStatusModel (rs : List (Option StatusResp)) :
    String → Option ProductStatus :=
  rs.foldl refreshStep (fun _ => none)

/-- What a single slot writes for key `x`, if anything. -/
def writerVal (slot : Option StatusResp) (x : String) : Option ProductStatus :=
  match slot with
  | some r =>
    if r.code = 200 then
      match r.body with
      | StatusBodyParse.parsed b => if x = b.id then some (statusOf b) else none
      | StatusBodyParse.raw _ => none
    else none
  | none => none

theorem refreshStep_eval (m : String → Option ProductStatus)
    (slot : Option StatusResp) (x : String) :
    refreshStep m slot x =
      match writerVal slot x with
      | some v => some v
      | none => m x := by
  match slot with
  | none => rfl
  | some r =>
    by_cases hc : r.code = 200
    · match hb : r.body with
      | StatusBodyParse.raw s => simp [refreshStep, writerVal, hc, hb]
      | StatusBodyParse.parsed b =>
        by_cases hx : x = b.id <;> simp [refreshStep, writerVal, hc, hb, hx]
    · simp [refreshStep, writerVal, hc]

theorem refresh_foldl_no_writer (x : String) :
    ∀ (rs : List (Option StatusResp)) (m : String → Option ProductStatus),
      (∀ slot ∈ rs, writerVal slot x = none) →
      List.foldl refreshStep m rs x = m x := by
  intro rs
  induction rs with
  | nil => intro m _; rfl
  | cons s t ih =>
    intro m h
    rw [List.foldl_cons, ih (refreshStep m s) (fun slot hs => h slot (List.mem_cons_of_mem s hs)),
      refreshStep_eval, h s (List.mem_cons_self s t)]

theorem refresh_foldl_writer :
    ∀ (rs : List (Option StatusResp)) (i : Nat) (m : String → Option ProductStatus)
      (r : StatusResp) (b : StatusBody),
      rs[i]? = some (some r) → r.code = 200 → r.body = StatusBodyParse.parsed b →
      (∀ (j : Nat) (slot : Option StatusResp), i < j → rs[j]? = some slot →
        writerVal slot b.id = none) →
      List.foldl refreshStep m rs b.id = some (statusOf b) := by
  intro rs
  induction rs with
  | nil => intro i m r b hget; simp at hget
  | cons s t ih =>
    intro i m r b hget hcode hbody hafter
    match i with
    | 0 =>
      rw [List.getElem?_cons_zero, Option.some.injEq] at hget
      subst hget
      rw [List.foldl_cons]
      have hnone : ∀ slot ∈ t, writerVal slot b.id = none := by
        intro slot hs
        obtain ⟨k, hk⟩ := List.getElem?_of_mem hs
        exact hafter (k + 1) slot (Nat.succ_pos k) (by rw [List.getElem?_cons_succ]; exact hk)
      rw [refresh_foldl_no_writer b.id t (refreshStep m (some r)) hnone,
        refreshStep_eval]
      have : writerVal (some r) b.id = some (statusOf b) := by
        simp [writerVal, hcode, hbody]
      rw [this]
    | j + 1 =>
      rw [List.getElem?_cons_succ] at hget
      rw [List.foldl_cons]
      refine ih j (refreshStep m s) r b hget hcode hbody ?_
      intro k slot hk hks
      exact hafter (k + 1) slot (Nat.succ_lt_succ hk)
        (by rw [List.getElem?_cons_succ]; exact hks)

theorem writerVal_eq_some {slot : Option StatusResp} {x : String}
    {v : ProductStatus} :
    writerVal slot x = some v ↔
      ∃ r b, slot = some r ∧ r.code = 200 ∧ r.body = StatusBodyParse.parsed b ∧
        x = b.id ∧ v = statusOf b := by
  constructor
  · intro h
    match slot with
    | none => cases h
    | some r =>
      by_cases hc : r.code = 200
      · match hb : r.body with
        | StatusBodyParse.raw s => simp [writerVal, hc, hb] at h
        | StatusBodyParse.parsed b =>
          by_cases hx : x = b.id
          · simp only [writerVal, hc, if_true, hb, hx, if_pos rfl,
              Option.some.injEq] at h
            exact ⟨r, b, rfl, hc, hb, hx, h.symm⟩
          · simp [writerVal, hc, hb, hx] at h
      · simp [writerVal, hc] at h
  · rintro ⟨r, b, rfl, hc, hb, rfl, rfl⟩
    simp [writerVal, hc, hb]

theorem refresh_foldl_some :
    ∀ (rs : List (Option StatusResp)) (m : String → Option ProductStatus)
      (x : String) (v : ProductStatus),
      List.foldl refreshStep m rs x = some v →
      (∃ slot ∈ rs, writerVal slot x = some v) ∨ m x = some v := by
  intro rs
  induction rs with
  | nil => intro m x v h; exact Or.inr h
  | cons s t ih =>
    intro m x v h
    rw [List.foldl_cons] at h
    rcases ih (refreshStep m s) x v h with ⟨slot, hs, hw⟩ | hstep
    · exact Or.inl ⟨slot, List.mem_cons_of_mem s hs, hw⟩
    · rw [refreshStep_eval] at hstep
      cases hwv : writerVal s x with
      | some w =>
        rw [hwv] at hstep
        cases hstep
        exact Or.inl ⟨s, List.mem_cons_self s t, hwv⟩
      | none =>
        rw [hwv] at hstep
        exact Or.inr hstep

/-- C9: the bulk status refresh is best-effort.  An ID written by no
position (in particular an ID whose own sub-response has a non-200 code or
an unparseable body, when every successful position echoes its own distinct
ID) is simply absent from the snapshot — never defaulted; a position with
code 200 and a parseable body contributes exactly its parsed entry,
regardless of failures at the other positions, which are thereby unaffected
and cause no error (the snapshot builder is a total function); and every
entry present in the snapshot comes from some position with code 200 and a
parseable body carrying that ID. -/
theorem refreshStatus_best_effort (rs : List (Option StatusResp)) (x : String) :
    ((∀ slot ∈ rs, writerVal slot x = none) →
      refreshProductsStatusModel rs x = none) ∧
    (∀ (i : Nat) (r : StatusResp) (b : StatusBody),
      rs[i]? = some (some r) → r.code = 200 → r.body = StatusBodyParse.parsed b →
      (∀ (j : Nat) (slot : Option StatusResp), i < j → rs[j]? = some slot →
        writerVal slot b.id = none) →
      refreshProductsStatusModel rs b.id = some (statusOf b)) ∧
    (∀ v, refreshProductsStatusModel rs x = some v →
      ∃ slot ∈ rs, ∃ r b, slot = some r ∧ r.code = 200 ∧
        r.body = StatusBodyParse.parsed b ∧ x = b.id ∧ v = statusOf b) := by
  refine ⟨?_, ?_, ?_⟩
  · intro h
    exact refresh_foldl_no_writer x rs (fun _ => none) h
  · intro i r b hget hcode hbody hafter
    exact refresh_foldl_writer rs i (fun _ => none) r b hget hcode hbody hafter
  · intro v hv
    rcases refresh_foldl_some rs (fun _ => none) x v hv with ⟨slot, hs, hw⟩ | hnone
    · obtain ⟨r, b, rfl, hc, hb, hx, hv'⟩ := writerVal_eq_some.mp hw
      exact ⟨some r, hs, r, b, rfl, hc, hb, hx, hv'⟩
    · cases hnone

def statusBody1 : StatusBody :=
  { id := "p1", review_status := some "approved", rejection_reasons := none }

def statusOk : StatusResp := { code := 200, body := StatusBodyParse.parsed statusBody1 }

def statusFail : StatusResp := { code := 500, body := StatusBodyParse.raw "err" }

def statusBadParse : StatusResp := { code := 200, body := StatusBodyParse.raw "<html>" }

/-- The batch: `p1` succeeds and parses, `p2`'s read fails with a 500,
`p3`'s read returns 200 with an unparseable body. -/
def statusBatch : List (Option StatusResp) :=
  [some statusOk, some statusFail, some statusBadParse]

/-- C9 witness: in the mixed batch, the failed ID `p2` is absent from the
snapshot while `p1`'s entry is present and intact. -/
theorem refreshStatus_best_effort_witness :
    refreshProductsStatusModel statusBatch "p2" = none ∧
    refreshProductsStatusModel statusBatch "p1"
      = some { reviewStatus := "approved", rejectionReasons := [] } := by
  constructor
  · exact (refreshStatus_best_effort statusBatch "p2").1 (by decide)
  · have h := (refreshStatus_best_effort statusBatch "p1").2.1 0 statusOk statusBody1
      rfl rfl rfl ?_
    · exact h
    · intro j slot hj hslot
      have hcases : j = 1 ∨ j = 2 ∨ 3 ≤ j := by omega
      rcases hcases with rfl | rfl | h3
      · cases hslot; rfl
      · cases hslot; rfl
      · rw [List.getElem?_eq_none (by simp [statusBatch]; omega)] at hslot
        cases hslot

/-! ### `getSets` membership reads (second service variant)

`getSets` lists the sets, then issues one batched member-read per set and
combines: a present sub-response with code 200 and a parseable body whose
`data` is an array yields that set's product IDs; anything else — missing
slot, non-200 code, unparseable body, missing `data` — only logs a warning
and yields the empty list.  `getSets` itself raises only when the
set-listing call or the batch call fails; the combining step is total. -/

/-- Parsed body of a member read: `data` is `some ids` when `body.data` is
present and an array, otherwise the probe fails. -/
inductive SetBodyParse where
  | raw (s : String)
  | parsed (data : Option (List String))
deriving DecidableEq

structure SetMembersResp where
  code : Nat
  body : SetBodyParse
deriving DecidableEq

/-- One element of the set-listing response (`fields=id,name`). -/
structure BasicSet where
  id : String
  name : String
deriving DecidableEq

structure ProductSet where
  id : String
  name : String
  productIds : List String
deriving DecidableEq

/-- The product IDs `getSets` extracts from one set's member-read slot. -/
def setProductIdsOf (slot : Option SetMembersResp) : List String :=
  match slot with
  | some r =>
    if r.code = 200 then
      match r.body with
      | SetBodyParse.parsed (some ids) => ids
      | SetBodyParse.parsed none => []
      | SetBodyParse.raw _ => []
    else []
  | none => []

/-- Step 3 of `getSets`: combine the listed sets with their member-read
sub-responses by position. -/
def getSetsCombine (basicSets : List BasicSet)
    (rs : List (Option SetMembersResp)) : List ProductSet :=
  basicSets.enum.map (fun p =>
    { id := p.2.id, name := p.2.name
      productIds := setProductIdsOf (rs.getD p.1 none) })

/-- A slot whose sub-response is missing, has a non-200 code, or an
unparseable body contributes the empty member list. -/
theorem setProductIdsOf_bad {slot : Option SetMembersResp}
    (h : ∀ r, slot = some r → r.code ≠ 200 ∨ ∃ s, r.body = SetBodyParse.raw s) :
    setProductIdsOf slot = [] := by
  match slot with
  | none => rfl
  | some r =>
    rcases h r rfl with hc | ⟨s, hs⟩
    · simp [setProductIdsOf, hc]
    · by_cases hc : r.code = 200 <;> simp [setProductIdsOf, hc, hs]

/-- C10 (implicit): a failed per-set membership read does not propagate —
a set whose member-read slot has a non-200 code or an unparseable body is
still returned, with `productIds = []`, and replacing such a failed slot by
a successful read of an empty member list leaves the whole result
unchanged, so a caller cannot distinguish a genuinely empty set from one
whose membership read failed; the combining step never raises. -/
theorem getSets_failed_read_empty (basicSets : List BasicSet)
    (rs : List (Option SetMembersResp)) (i : Nat) (hi : i < basicSets.length) :
    ((∀ r, rs.getD i none = some r →
        r.code ≠ 200 ∨ ∃ s, r.body = SetBodyParse.raw s) →
      (getSetsCombine basicSets rs)[i]? = some
        { id := (basicSets.get ⟨i, hi⟩).id
          name := (basicSets.get ⟨i, hi⟩).name
          productIds := [] }) ∧
    (i < rs.length →
      (∀ r, rs.getD i none = some r →
        r.code ≠ 200 ∨ ∃ s, r.body = SetBodyParse.raw s) →
      getSetsCombine basicSets
          (rs.set i (some { code := 200, body := SetBodyParse.parsed (some []) }))
        = getSetsCombine basicSets rs) := by
  constructor
  · intro hbad
    rw [getSetsCombine, List.getElem?_map, List.getElem?_enum,
      List.getElem?_eq_getElem hi]
    simp only [Option.map_some', Option.map_map, List.get_eq_getElem,
      Option.some.injEq]
    rw [setProductIdsOf_bad hbad]
  · intro hlen hbad
    rw [getSetsCombine, getSetsCombine]
    apply List.map_congr_left
    intro p hp
    by_cases hpi : p.1 = i
    · subst hpi
      have h1 : (rs.set p.1 (some { code := 200, body := SetBodyParse.parsed (some []) })).getD p.1 none
          = some { code := 200, body := SetBodyParse.parsed (some []) } := by
        rw [List.getD_eq_getElem?_getD, List.getElem?_set_self hlen]
        rfl
      rw [h1, setProductIdsOf_bad hbad]
      rfl
    · have h2 : (rs.set i (some { code := 200, body := SetBodyParse.parsed (some []) })).getD p.1 none
          = rs.getD p.1 none := by
        rw [List.getD_eq_getElem?_getD, List.getD_eq_getElem?_getD,
          List.getElem?_set_ne (fun he => hpi he.symm)]
      rw [h2]

def basicSet1 : BasicSet := { id := "s1", name := "Set One" }

def failedMembersResp : SetMembersResp := { code := 500, body := SetBodyParse.raw "boom" }

/-- C10 witness: a set whose member read failed with a 500 is still
returned with an empty `productIds`, and its output is identical to that of
a successful read of an empty member list. -/
theorem getSets_failed_read_empty_witness :
    (getSetsCombine [basicSet1] [some failedMembersResp])[0]? = some
      { id := "s1", name := "Set One", productIds := [] } ∧
    getSetsCombine [basicSet1]
        ([some failedMembersResp].set 0
          (some { code := 200, body := SetBodyParse.parsed (some []) }))
      = getSetsCombine [basicSet1] [some failedMembersResp] := by
  have hbad : ∀ r, ([some failedMembersResp] : List (Option SetMembersResp)).getD 0 none
      = some r → r.code ≠ 200 ∨ ∃ s, r.body = SetBodyParse.raw s := by
    intro r hr
    have hr' : failedMembersResp = r := by
      simpa using hr
    subst hr'
    exact Or.inl (by decide)
  constructor
  · exact (getSets_failed_read_empty [basicSet1] [some failedMembersResp] 0
      (by decide)).1 hbad
  · exact (getSets_failed_read_empty [basicSet1] [some failedMembersResp] 0
      (by decide)).2 (by decide) hbad
